import Mathlib

/-!
Verification of the canada-hsa-calculator core: the bracket-rate engine
(`effectiveTaxRate`, `marginalRate`) and the comparison engine (`calculate`),
embedded over `ℚ`.  JavaScript `Infinity` thresholds are represented by
`Option ℚ` with `none` standing for the unbounded sentinel; all arithmetic is
exact rational arithmetic standing in for the source's floating point.
-/

namespace HSA

/-- A tax bracket: upper income `threshold` (`none` = Infinity) and `rate`. -/
structure TaxBracket where
  threshold : Option ℚ
  rate : ℚ
deriving DecidableEq, Repr

/-- `income <= bracket.threshold` in JS semantics: anything is `<= Infinity`. -/
def leTh (x : ℚ) : Option ℚ → Bool
  | none => true
  | some t => decide (x ≤ t)

/-- `Math.min(income, bracket.threshold)` in JS semantics: `min x Infinity = x`. -/
def minTh (x : ℚ) : Option ℚ → ℚ
  | none => x
  | some t => min x t

/-- Strict threshold comparison with `none` = Infinity (used for the table
invariant: thresholds strictly increasing). -/
def thLtB : Option ℚ → Option ℚ → Bool
  | none, _ => false
  | some _, none => true
  | some a, some b => decide (a < b)

/-- The `for` loop of `effectiveTaxRate`: walks the brackets accumulating
`totalTax`, carrying `previousThreshold`, breaking at the first bracket with
`income <= bracket.threshold`.  When the loop continues past a bracket, its
threshold is finite (the `none` branch of the inner match is unreachable since
`leTh income none = true`), and `previousThreshold` is set to it. -/
def effLoop (income : ℚ) : List TaxBracket → ℚ → ℚ → ℚ
  | [], _, totalTax => totalTax
  | b :: bs, previousThreshold, totalTax =>
    let taxableInBracket := minTh income b.threshold - previousThreshold
    let totalTax₂ :=
      if 0 < taxableInBracket then totalTax + taxableInBracket * b.rate
      else totalTax
    if leTh income b.threshold then totalTax₂
    else
      match b.threshold with
      | some t => effLoop income bs t totalTax₂
      | none => totalTax₂

/-- `effectiveTaxRate` from calculator.ts: total tax divided by income,
`0` for `income <= 0`. -/
def effectiveTaxRate (income : ℚ) (brackets : List TaxBracket) : ℚ :=
  if income ≤ 0 then 0
  else effLoop income brackets 0 0 / income

/-- The `for` loop of `marginalRate`: the rate of the first bracket with
`income <= bracket.threshold`, if any. -/
def marginalLoop (income : ℚ) : List TaxBracket → Option ℚ
  | [] => none
  | b :: bs => if leTh income b.threshold then some b.rate else marginalLoop income bs

/-- `brackets[brackets.length - 1]!.rate`: the last bracket's rate (the source
throws on an empty table; `0` stands in for that unreachable case). -/
def lastRate : List TaxBracket → ℚ
  | [] => 0
  | [b] => b.rate
  | _ :: b :: bs => lastRate (b :: bs)

/-- `marginalRate` from calculator.ts. -/
def marginalRate (income : ℚ) (brackets : List TaxBracket) : ℚ :=
  match marginalLoop income brackets with
  | some r => r
  | none => lastRate brackets

/-- The 2025 federal tax brackets from types.ts. -/
def FEDERAL_TAX_BRACKETS : List TaxBracket :=
  [⟨some 57375, 0.15⟩, ⟨some 114750, 0.205⟩, ⟨some 177882, 0.26⟩,
   ⟨some 253414, 0.29⟩, ⟨none, 0.33⟩]

/-- A province record from types.ts. -/
structure Province where
  code : String
  name : String
  taxBrackets : List TaxBracket
deriving DecidableEq, Repr

/-- The 2025 provincial tax brackets from types.ts, as an association list keyed by
province code (the source's `Record<ProvinceCode, Province>`). -/
def PROVINCES : List (String × Province) :=
  [("AB", ⟨"AB", "Alberta",
      [⟨some 151234, 0.1⟩, ⟨some 181481, 0.12⟩, ⟨some 241974, 0.13⟩,
       ⟨some 362961, 0.14⟩, ⟨none, 0.15⟩]⟩),
   ("BC", ⟨"BC", "British Columbia",
      [⟨some 49279, 0.0506⟩, ⟨some 98560, 0.077⟩, ⟨some 113158, 0.105⟩,
       ⟨some 137407, 0.1229⟩, ⟨some 186306, 0.147⟩, ⟨some 259829, 0.168⟩,
       ⟨none, 0.205⟩]⟩),
   ("MB", ⟨"MB", "Manitoba",
      [⟨some 47564, 0.108⟩, ⟨some 101200, 0.1275⟩, ⟨none, 0.174⟩]⟩),
   ("NB", ⟨"NB", "New Brunswick",
      [⟨some 51306, 0.094⟩, ⟨some 102614, 0.14⟩, ⟨some 190060, 0.16⟩,
       ⟨none, 0.195⟩]⟩),
   ("NL", ⟨"NL", "Newfoundland and Labrador",
      [⟨some 44192, 0.087⟩, ⟨some 88382, 0.145⟩, ⟨some 157792, 0.158⟩,
       ⟨some 220910, 0.178⟩, ⟨some 282214, 0.198⟩, ⟨some 564429, 0.208⟩,
       ⟨some 1128858, 0.213⟩, ⟨none, 0.218⟩]⟩),
   ("NS", ⟨"NS", "Nova Scotia",
      [⟨some 30507, 0.0879⟩, ⟨some 61015, 0.1495⟩, ⟨some 95883, 0.1667⟩,
       ⟨some 154650, 0.175⟩, ⟨none, 0.21⟩]⟩),
   ("ON", ⟨"ON", "Ontario",
      [⟨some 52886, 0.0505⟩, ⟨some 105775, 0.0915⟩, ⟨some 150000, 0.1116⟩,
       ⟨some 220000, 0.1216⟩, ⟨none, 0.1316⟩]⟩),
   ("PE", ⟨"PE", "Prince Edward Island",
      [⟨some 33328, 0.095⟩, ⟨some 64656, 0.1347⟩, ⟨some 105000, 0.166⟩,
       ⟨some 140000, 0.1762⟩, ⟨none, 0.19⟩]⟩),
   ("SK", ⟨"SK", "Saskatchewan",
      [⟨some 53463, 0.105⟩, ⟨some 152750, 0.125⟩, ⟨none, 0.145⟩]⟩),
   ("YT", ⟨"YT", "Yukon",
      [⟨some 57375, 0.064⟩, ⟨some 114750, 0.09⟩, ⟨some 177882, 0.109⟩,
       ⟨some 500000, 0.128⟩, ⟨none, 0.15⟩]⟩)]

/-- `PROVINCES[provinceCode]` lookup. -/
def lookupProvince (code : String) : Option Province :=
  (PROVINCES.find? fun p => p.1 = code).map Prod.snd

/-- `effectiveFederalTaxRate` from calculator.ts. -/
def effectiveFederalTaxRate (income : ℚ) : ℚ :=
  effectiveTaxRate income FEDERAL_TAX_BRACKETS

/-- `effectiveProvincialTaxRate` from calculator.ts. -/
def effectiveProvincialTaxRate (income : ℚ) (province : Province) : ℚ :=
  effectiveTaxRate income province.taxBrackets

/-- `marginalFederalTaxRate` from calculator.ts. -/
def marginalFederalTaxRate (income : ℚ) : ℚ :=
  marginalRate income FEDERAL_TAX_BRACKETS

/-- `marginalProvincialTaxRate` from calculator.ts. -/
def marginalProvincialTaxRate (income : ℚ) (province : Province) : ℚ :=
  marginalRate income province.taxBrackets

/-- `CalculatorInput` from types.ts. -/
structure CalculatorInput where
  annualIncome : ℚ
  annualMedicalExpenses : ℚ
  province : String
  adminFeeRate : ℚ
  annualPlanFee : ℚ
deriving DecidableEq, Repr

/-- `CalculatorResult` from types.ts. -/
structure CalculatorResult where
  adminFee : ℚ
  totalBusinessCost : ℚ
  requiredPersonalIncome : ℚ
  savings : ℚ
  marginalTaxRate : ℚ
  federalTaxRate : ℚ
  provincialTaxRate : ℚ
  annualPlanFee : ℚ
  breakEven : ℚ
deriving DecidableEq, Repr

/-- `calculate` from calculator.ts; `throw` is modelled as `Except.error` with
the source's message. -/
def calculate (input : CalculatorInput) : Except String CalculatorResult :=
  if input.annualIncome ≤ 0 then
    Except.error ("annualIncome must be greater than 0")
  else if input.annualMedicalExpenses < 0 then
    Except.error ("annualMedicalExpenses must be >= 0")
  else
    match lookupProvince input.province with
    | none => Except.error ("Invalid province code: " ++ input.province)
    | some province =>
      let federalTaxRate := marginalFederalTaxRate input.annualIncome
      let provincialTaxRate := marginalProvincialTaxRate input.annualIncome province
      let marginalTaxRate := federalTaxRate + provincialTaxRate
      let adminFee := input.annualMedicalExpenses * input.adminFeeRate
      let totalBusinessCost := input.annualMedicalExpenses + adminFee + input.annualPlanFee
      let requiredPersonalIncome := input.annualMedicalExpenses / (1 - marginalTaxRate)
      let savings := requiredPersonalIncome - totalBusinessCost
      let breakEven := input.annualPlanFee * (1 - marginalTaxRate) / marginalTaxRate
      Except.ok
        { adminFee := adminFee
          totalBusinessCost := totalBusinessCost
          requiredPersonalIncome := requiredPersonalIncome
          savings := savings
          marginalTaxRate := marginalTaxRate
          federalTaxRate := federalTaxRate
          provincialTaxRate := provincialTaxRate
          annualPlanFee := input.annualPlanFee
          breakEven := breakEven }

/-- Spec §3's table invariant: at least one entry, thresholds strictly
increasing, rates non-decreasing, last threshold unbounded. -/
def tableInvariant (bs : List TaxBracket) : Prop :=
  bs ≠ [] ∧
  List.Chain' (fun s t => thLtB s.threshold t.threshold = true) bs ∧
  List.Pairwise (fun x y : ℚ => x ≤ y) (bs.map TaxBracket.rate) ∧
  bs.getLast?.map TaxBracket.threshold = some none

/-- The total liability transcribed from spec §4.1's contract for
`effectiveRate`: walk the table from the lowest bracket upward, accumulate
`rate_i * (min(income, threshold_i) - previousThreshold)` for each bracket
whose range overlaps `[0, income)` (positive taxable amount), stop as soon as
`income <= threshold_i`, with `previousThreshold` starting at 0 and updating to
each fully consumed bracket's threshold. -/
def specLiability (income : ℚ) : List TaxBracket → ℚ → ℚ
  | [], _ => 0
  | b :: bs, previousThreshold =>
    let seg := minTh income b.threshold - previousThreshold
    (if 0 < seg then seg * b.rate else 0) +
    (if leTh income b.threshold then 0
     else
       match b.threshold with
       | some t => specLiability income bs t
       | none => 0)

/-- The result record `calculate` builds once validation has passed, for the
resolved province `p`; transcribed from the body of `calculate`. -/
def calcResult (input : CalculatorInput) (p : Province) : CalculatorResult :=
  let federalTaxRate := marginalFederalTaxRate input.annualIncome
  let provincialTaxRate := marginalProvincialTaxRate input.annualIncome p
  let marginalTaxRate := federalTaxRate + provincialTaxRate
  let adminFee := input.annualMedicalExpenses * input.adminFeeRate
  let totalBusinessCost := input.annualMedicalExpenses + adminFee + input.annualPlanFee
  let requiredPersonalIncome := input.annualMedicalExpenses / (1 - marginalTaxRate)
  { adminFee := adminFee
    totalBusinessCost := totalBusinessCost
    requiredPersonalIncome := requiredPersonalIncome
    savings := requiredPersonalIncome - totalBusinessCost
    marginalTaxRate := marginalTaxRate
    federalTaxRate := federalTaxRate
    provincialTaxRate := provincialTaxRate
    annualPlanFee := input.annualPlanFee
    breakEven := input.annualPlanFee * (1 - marginalTaxRate) / marginalTaxRate }

/-- A lower bound on the first threshold of a table (trivial for the empty
table): every finite threshold of the head bracket is at least `p`. -/
def headThresholdLB (p : ℚ) : List TaxBracket → Prop
  | [] => True
  | b :: _ => ∀ t ∈ b.threshold, p ≤ t

lemma marginalLoop_mem {y r : ℚ} :
    ∀ {bs : List TaxBracket}, marginalLoop y bs = some r → r ∈ bs.map TaxBracket.rate := by
  intro bs
  induction bs with
  | nil => simp [marginalLoop]
  | cons b bs ih =>
    intro h
    by_cases hle : leTh y b.threshold <;> simp [marginalLoop, hle] at h
    · simp [h.symm]
    · exact List.mem_cons_of_mem _ (ih h)

lemma lastRate_mem : ∀ {bs : List TaxBracket}, bs ≠ [] → lastRate bs ∈ bs.map TaxBracket.rate := by
  intro bs
  induction bs with
  | nil => intro h; exact absurd rfl h
  | cons b bs ih =>
    intro _
    cases bs with
    | nil => simp [lastRate]
    | cons c cs =>
      have : lastRate (b :: c :: cs) = lastRate (c :: cs) := rfl
      rw [this, List.map_cons]
      exact List.mem_cons_of_mem _ (ih (by simp))

lemma marginalRate_mem (y : ℚ) (bs : List TaxBracket) (h : bs ≠ []) :
    marginalRate y bs ∈ bs.map TaxBracket.rate := by
  rw [marginalRate]
  cases hm : marginalLoop y bs with
  | some r => exact marginalLoop_mem hm
  | none => exact lastRate_mem h

lemma marginalLoop_eq_find (y : ℚ) :
    ∀ bs : List TaxBracket,
      marginalLoop y bs = (bs.find? fun b => leTh y b.threshold).map TaxBracket.rate := by
  intro bs
  induction bs with
  | nil => simp [marginalLoop]
  | cons b bs ih =>
    by_cases hle : leTh y b.threshold <;> simp [marginalLoop, List.find?, hle, ih]

lemma lastRate_eq_getLast : ∀ (bs : List TaxBracket) (h : bs ≠ []),
    lastRate bs = (bs.getLast h).rate := by
  intro bs
  induction bs with
  | nil => intro h; exact absurd rfl h
  | cons b bs ih =>
    intro h
    cases bs with
    | nil => rfl
    | cons c cs =>
      have h1 : lastRate (b :: c :: cs) = lastRate (c :: cs) := rfl
      rw [h1, ih (by simp)]
      exact congrArg TaxBracket.rate (List.getLast_cons (by simp)).symm

lemma marginalRate_cons {y : ℚ} {b : TaxBracket} {bs : List TaxBracket}
    (hle : leTh y b.threshold = false) (hne : bs ≠ []) :
    marginalRate y (b :: bs) = marginalRate y bs := by
  rw [marginalRate, marginalRate]
  have h1 : marginalLoop y (b :: bs) = marginalLoop y bs := by
    simp [marginalLoop, hle]
  rw [h1]
  cases hm : marginalLoop y bs with
  | some r => rfl
  | none =>
    cases bs with
    | nil => exact absurd rfl hne
    | cons c cs => rfl

lemma marginalLoop_isSome (y : ℚ) :
    ∀ {bs : List TaxBracket}, bs.getLast?.map TaxBracket.threshold = some none →
      ∃ r, marginalLoop y bs = some r := by
  intro bs
  induction bs with
  | nil => simp
  | cons b bs ih =>
    intro h
    by_cases hle : leTh y b.threshold
    · exact ⟨b.rate, by simp [marginalLoop, hle]⟩
    · cases bs with
      | nil =>
        simp [List.getLast?] at h
        rw [h] at hle
        simp [leTh] at hle
      | cons c cs =>
        have h2 : (c :: cs).getLast?.map TaxBracket.threshold = some none := by
          simpa [List.getLast?_cons_cons] using h
        obtain ⟨r, hr⟩ := ih h2
        exact ⟨r, by rw [marginalLoop, if_neg hle]; exact hr⟩

lemma effLoop_eq_specLiability (y : ℚ) :
    ∀ (bs : List TaxBracket) (p a : ℚ), effLoop y bs p a = a + specLiability y bs p := by
  intro bs
  induction bs with
  | nil => intro p a; simp [effLoop, specLiability]
  | cons b bs ih =>
    intro p a
    rw [effLoop, specLiability]
    by_cases hle : leTh y b.threshold
    · simp only [hle, if_true]
      split_ifs <;> ring
    · cases hth : b.threshold with
      | none => rw [hth] at hle; simp [leTh] at hle
      | some t =>
        simp only [hle, hth, if_false, Bool.false_eq_true, ite_false]
        rw [ih]
        split_ifs <;> ring

lemma effLoop_le_aux (y : ℚ) :
    ∀ (bs : List TaxBracket) (p a M : ℚ), p < y →
      headThresholdLB p bs →
      List.Chain' (fun s t => thLtB s.threshold t.threshold = true) bs →
      List.Pairwise (fun x y : ℚ => x ≤ y) (bs.map TaxBracket.rate) →
      marginalLoop y bs = some M →
      effLoop y bs p a ≤ a + (y - p) * M := by
  intro bs
  induction bs with
  | nil => intro p a M _ _ _ _ hM; simp [marginalLoop] at hM
  | cons b bs ih =>
    intro p a M hpy hhead hchain hpair hM
    by_cases hle : leTh y b.threshold
    · have hM2 : M = b.rate := by
        simp [marginalLoop, hle] at hM
        exact hM.symm
      have hmin : minTh y b.threshold = y := by
        cases hth : b.threshold with
        | none => rfl
        | some t =>
          have hyt : y ≤ t := by
            rw [hth] at hle
            simpa [leTh] using hle
          simp [minTh, hyt]
      rw [effLoop]
      simp only [hle, if_true, hmin]
      rw [if_pos (by linarith), hM2]
    · cases hth : b.threshold with
      | none => rw [hth] at hle; simp [leTh] at hle
      | some t =>
        have hle2 : ¬(leTh y (some t) = true) := by rw [← hth]; exact hle
        have hty : t < y := by simpa [leTh] using hle2
        have hpt : p ≤ t := by
          have := hhead
          rw [headThresholdLB] at this
          exact this t (by rw [hth]; rfl)
        have hMtail : marginalLoop y bs = some M := by
          simpa [marginalLoop, hle] using hM
        have hbM : b.rate ≤ M := by
          have hp2 : List.Pairwise (fun x y : ℚ => x ≤ y)
              (b.rate :: bs.map TaxBracket.rate) := by simpa using hpair
          exact (List.pairwise_cons.mp hp2).1 M (marginalLoop_mem hMtail)
        have hmin : minTh y (some t) = t := by
          simp [minTh, min_eq_right (le_of_lt hty)]
        have hstep : effLoop y (b :: bs) p a = effLoop y bs t (a + (t - p) * b.rate) := by
          simp only [effLoop, hth, hmin]
          rw [if_neg hle2]
          congr 1
          split_ifs with hpos
          · rfl
          · have hte : t = p := le_antisymm (by linarith) hpt
            rw [hte]; ring
        have hhead2 : headThresholdLB t bs := by
          cases bs with
          | nil => trivial
          | cons c cs =>
            have hrel : thLtB b.threshold c.threshold = true :=
              (List.chain'_cons.mp hchain).1
            rw [headThresholdLB]
            intro u hu
            cases hcu : c.threshold with
            | none => rw [hcu] at hu; simp at hu
            | some u2 =>
              rw [hcu] at hu
              simp at hu
              subst hu
              rw [hth, hcu] at hrel
              simp [thLtB] at hrel
              linarith
        have hih := ih t (a + (t - p) * b.rate) M hty hhead2 hchain.tail
          (by simpa using (List.pairwise_cons.mp (by simpa using hpair)).2) hMtail
        have h1 : (t - p) * b.rate ≤ (t - p) * M :=
          mul_le_mul_of_nonneg_left hbM (by linarith)
        rw [hstep]
        calc effLoop y bs t (a + (t - p) * b.rate)
            ≤ a + (t - p) * b.rate + (y - t) * M := hih
          _ ≤ a + (t - p) * M + (y - t) * M := by linarith
          _ = a + (y - p) * M := by ring

example : marginalFederalTaxRate 100000 = 0.205 := by
  norm_num [marginalFederalTaxRate, marginalRate, marginalLoop, leTh, FEDERAL_TAX_BRACKETS]

example : effectiveFederalTaxRate 40000 = 0.15 := by
  norm_num [effectiveFederalTaxRate, effectiveTaxRate, effLoop, leTh, minTh, FEDERAL_TAX_BRACKETS]

example : effectiveFederalTaxRate 100000 = 0.17344375 := by
  norm_num [effectiveFederalTaxRate, effectiveTaxRate, effLoop, leTh, minTh, FEDERAL_TAX_BRACKETS]

example : lookupProvince ("ON") = some ⟨"ON", "Ontario",
    [⟨some 52886, 0.0505⟩, ⟨some 105775, 0.0915⟩, ⟨some 150000, 0.1116⟩,
     ⟨some 220000, 0.1216⟩, ⟨none, 0.1316⟩]⟩ := rfl

example : lookupProvince ("ZZ") = none := rfl

lemma calculate_ok (input : CalculatorInput) (p : Province)
    (h1 : 0 < input.annualIncome) (h2 : 0 ≤ input.annualMedicalExpenses)
    (hp : lookupProvince input.province = some p) :
    calculate input = Except.ok (calcResult input p) := by
  rw [calculate, if_neg (not_le.mpr h1), if_neg (not_lt.mpr h2), hp]
  rfl

lemma calculate_ok_inv {input : CalculatorInput} {r : CalculatorResult}
    (h : calculate input = Except.ok r) :
    ∃ p, 0 < input.annualIncome ∧ 0 ≤ input.annualMedicalExpenses ∧
      lookupProvince input.province = some p ∧ r = calcResult input p := by
  by_cases h1 : input.annualIncome ≤ 0
  · rw [calculate, if_pos h1] at h
    exact absurd h (by simp)
  by_cases h2 : input.annualMedicalExpenses < 0
  · rw [calculate, if_neg h1, if_pos h2] at h
    exact absurd h (by simp)
  cases hlp : lookupProvince input.province with
  | none =>
    rw [calculate, if_neg h1, if_neg h2, hlp] at h
    exact absurd h (by simp)
  | some p =>
    refine ⟨p, not_le.mp h1, not_lt.mp h2, rfl, ?_⟩
    have hok := calculate_ok input p (not_le.mp h1) (not_lt.mp h2) hlp
    exact (Except.ok.inj (hok.symm.trans h)).symm

/-- C1: `effectiveTaxRate` returns 0 exactly for `income <= 0` (in particular
for income 0, for any table), and for positive income it returns the spec's
bracket-walk liability (accumulate `rate_i * (min(income, threshold_i) -
previousThreshold)` over the brackets overlapping `[0, income)`, stopping at
the first bracket with `income <= threshold_i`) divided by income. -/
theorem effectiveTaxRate_contract (income : ℚ) (brackets : List TaxBracket) :
    (income ≤ 0 → effectiveTaxRate income brackets = 0) ∧
    (0 < income →
      effectiveTaxRate income brackets = specLiability income brackets 0 / income) := by
  constructor
  · intro h
    rw [effectiveTaxRate, if_pos h]
  · intro h
    rw [effectiveTaxRate, if_neg (not_le.mpr h), effLoop_eq_specLiability, zero_add]

/-- Witness for C1 at income 40000 and the federal table. -/
theorem effectiveTaxRate_contract_witness :
    effectiveTaxRate 40000 FEDERAL_TAX_BRACKETS =
      specLiability 40000 FEDERAL_TAX_BRACKETS 0 / 40000 :=
  (effectiveTaxRate_contract 40000 FEDERAL_TAX_BRACKETS).2 (by norm_num)

/-- C2: for a non-empty table, `marginalRate` returns the rate of the first
bracket (in list order) whose threshold is `>= income`, and the last bracket's
rate when no such bracket exists; at a boundary `T` of a two-bracket table the
income resolves to the lower bracket, and any `T + epsilon` with `epsilon > 0`
to the upper one. -/
theorem marginalRate_contract :
    (∀ (y : ℚ) (bs : List TaxBracket) (hne : bs ≠ []),
      marginalRate y bs =
        match bs.find? (fun b => leTh y b.threshold) with
        | some b => b.rate
        | none => (bs.getLast hne).rate) ∧
    (∀ T r₁ r₂ : ℚ, marginalRate T [⟨some T, r₁⟩, ⟨none, r₂⟩] = r₁) ∧
    (∀ T r₁ r₂ ε : ℚ, 0 < ε → marginalRate (T + ε) [⟨some T, r₁⟩, ⟨none, r₂⟩] = r₂) := by
  refine ⟨?_, ?_, ?_⟩
  · intro y bs hne
    rw [marginalRate, marginalLoop_eq_find]
    cases hf : bs.find? (fun b => leTh y b.threshold) with
    | some b => rfl
    | none =>
      simp only [Option.map_none']
      exact lastRate_eq_getLast bs hne
  · intro T r₁ r₂
    rw [marginalRate, marginalLoop, if_pos (by simp [leTh])]
  · intro T r₁ r₂ ε hε
    have h1 : ¬(leTh (T + ε) (some T) = true) := by
      simp [leTh]
      linarith
    rw [marginalRate, marginalLoop, if_neg h1, marginalLoop, if_pos (by simp [leTh])]

/-- Witness for C2: income just above the first threshold falls in the upper
bracket. -/
theorem marginalRate_contract_witness :
    marginalRate (10 + 1) [⟨some 10, (1 : ℚ)/5⟩, ⟨none, (3 : ℚ)/10⟩] = 3/10 :=
  marginalRate_contract.2.2 10 (1/5) (3/10) 1 (by norm_num)

/-- C4: `calculate` fails exactly when one of the three validations fails,
checked in order: income `<= 0` (regardless of the other inputs), expense
`< 0`, unknown province code (with the code in the message); when all three
pass it always returns a result. -/
theorem calculate_validation (input : CalculatorInput) :
    ((∃ e, calculate input = Except.error e) ↔
      (input.annualIncome ≤ 0 ∨ input.annualMedicalExpenses < 0 ∨
        lookupProvince input.province = none)) ∧
    (input.annualIncome ≤ 0 →
      calculate input = Except.error ("annualIncome must be greater than 0")) ∧
    (0 < input.annualIncome → input.annualMedicalExpenses < 0 →
      calculate input = Except.error ("annualMedicalExpenses must be >= 0")) ∧
    (0 < input.annualIncome → 0 ≤ input.annualMedicalExpenses →
      lookupProvince input.province = none →
      calculate input = Except.error ("Invalid province code: " ++ input.province)) ∧
    (0 < input.annualIncome → 0 ≤ input.annualMedicalExpenses →
      ∀ p, lookupProvince input.province = some p →
        ∃ r, calculate input = Except.ok r) := by
  have herr1 : input.annualIncome ≤ 0 →
      calculate input = Except.error ("annualIncome must be greater than 0") := by
    intro h
    rw [calculate, if_pos h]
  have herr2 : 0 < input.annualIncome → input.annualMedicalExpenses < 0 →
      calculate input = Except.error ("annualMedicalExpenses must be >= 0") := by
    intro h1 h2
    rw [calculate, if_neg (not_le.mpr h1), if_pos h2]
  have herr3 : 0 < input.annualIncome → 0 ≤ input.annualMedicalExpenses →
      lookupProvince input.province = none →
      calculate input = Except.error ("Invalid province code: " ++ input.province) := by
    intro h1 h2 h3
    rw [calculate, if_neg (not_le.mpr h1), if_neg (not_lt.mpr h2), h3]
  have hok : 0 < input.annualIncome → 0 ≤ input.annualMedicalExpenses →
      ∀ p, lookupProvince input.province = some p →
        ∃ r, calculate input = Except.ok r :=
    fun h1 h2 p hp => ⟨_, calculate_ok input p h1 h2 hp⟩
  refine ⟨⟨?_, ?_⟩, herr1, herr2, herr3, hok⟩
  · rintro ⟨e, he⟩
    by_contra hcon
    push_neg at hcon
    obtain ⟨hi, hx, hp⟩ := hcon
    cases hlp : lookupProvince input.province with
    | none => exact hp hlp
    | some p =>
      obtain ⟨r, hr⟩ := hok hi hx p hlp
      rw [hr] at he
      exact Except.noConfusion he
  · rintro (h | h | h)
    · exact ⟨_, herr1 h⟩
    · by_cases h1 : input.annualIncome ≤ 0
      · exact ⟨_, herr1 h1⟩
      · exact ⟨_, herr2 (not_le.mp h1) h⟩
    · by_cases h1 : input.annualIncome ≤ 0
      · exact ⟨_, herr1 h1⟩
      · by_cases h2 : input.annualMedicalExpenses < 0
        · exact ⟨_, herr2 (not_le.mp h1) h2⟩
        · exact ⟨_, herr3 (not_le.mp h1) (not_lt.mp h2) h⟩

/-- Witness for C4: negative income is rejected with the income message even
with an unknown province code. -/
theorem calculate_validation_witness :
    calculate ⟨-5, 0, "ZZ", 0, 0⟩ = Except.error ("annualIncome must be greater than 0") :=
  (calculate_validation ⟨-5, 0, "ZZ", 0, 0⟩).2.1 (by norm_num)

/-- C7: with zero expenses (and a validated input) the admin fee is 0, the
total business cost is the plan fee, the required personal income is 0, and
the savings are minus the plan fee. -/
theorem calculate_zero_expense (input : CalculatorInput) (p : Province)
    (h1 : 0 < input.annualIncome) (h2 : input.annualMedicalExpenses = 0)
    (hp : lookupProvince input.province = some p) :
    ∃ r, calculate input = Except.ok r ∧ r.adminFee = 0 ∧
      r.totalBusinessCost = input.annualPlanFee ∧
      r.requiredPersonalIncome = 0 ∧ r.savings = -input.annualPlanFee := by
  refine ⟨_, calculate_ok input p h1 (by rw [h2]) hp, ?_, ?_, ?_, ?_⟩ <;>
    simp [calcResult, h2]

/-- Witness for C7 at a concrete validated Ontario input. -/
theorem calculate_zero_expense_witness :
    ∃ r, calculate ⟨100000, 0, "ON", 0.08, 120⟩ = Except.ok r ∧ r.adminFee = 0 ∧
      r.totalBusinessCost = 120 ∧ r.requiredPersonalIncome = 0 ∧ r.savings = -120 :=
  calculate_zero_expense ⟨100000, 0, "ON", 0.08, 120⟩
    ⟨"ON", "Ontario",
      [⟨some 52886, 0.0505⟩, ⟨some 105775, 0.0915⟩, ⟨some 150000, 0.1116⟩,
       ⟨some 220000, 0.1216⟩, ⟨none, 0.1316⟩]⟩
    (by norm_num) rfl rfl

/-- C10: `calculate` never validates `adminFeeRate` or `annualPlanFee`: for any
income `> 0`, expense `>= 0` and registered province it returns a result for
every fee rate and plan fee (negative ones included), and the fees pass
straight through into the derived fields. -/
theorem calculate_no_fee_validation (income expense : ℚ) (code : String)
    (feeRate planFee : ℚ) (p : Province)
    (h1 : 0 < income) (h2 : 0 ≤ expense) (hp : lookupProvince code = some p) :
    ∃ r, calculate ⟨income, expense, code, feeRate, planFee⟩ = Except.ok r ∧
      r.adminFee = expense * feeRate ∧
      r.totalBusinessCost = expense + expense * feeRate + planFee ∧
      r.annualPlanFee = planFee ∧
      r.savings = r.requiredPersonalIncome - r.totalBusinessCost ∧
      r.breakEven = planFee * (1 - r.marginalTaxRate) / r.marginalTaxRate :=
  ⟨_, calculate_ok ⟨income, expense, code, feeRate, planFee⟩ p h1 h2 hp,
    rfl, rfl, rfl, rfl, rfl⟩

/-- Witness for C10 at a negative fee rate and a negative plan fee. -/
theorem calculate_no_fee_validation_witness :
    ∃ r, calculate ⟨50000, 1000, "ON", -0.5, -300⟩ = Except.ok r ∧
      r.adminFee = 1000 * (-0.5 : ℚ) ∧
      r.totalBusinessCost = 1000 + 1000 * (-0.5 : ℚ) + (-300 : ℚ) ∧
      r.annualPlanFee = (-300 : ℚ) ∧
      r.savings = r.requiredPersonalIncome - r.totalBusinessCost ∧
      r.breakEven = (-300 : ℚ) * (1 - r.marginalTaxRate) / r.marginalTaxRate :=
  calculate_no_fee_validation 50000 1000 ("ON") (-0.5) (-300)
    ⟨"ON", "Ontario",
      [⟨some 52886, 0.0505⟩, ⟨some 105775, 0.0915⟩, ⟨some 150000, 0.1116⟩,
       ⟨some 220000, 0.1216⟩, ⟨none, 0.1316⟩]⟩
    (by norm_num) (by norm_num) rfl

lemma marginalFederal_100000 : marginalFederalTaxRate 100000 = 0.205 := by
  norm_num [marginalFederalTaxRate, marginalRate, marginalLoop, leTh, FEDERAL_TAX_BRACKETS]

lemma marginalON_100000 :
    marginalProvincialTaxRate 100000
      ⟨"ON", "Ontario",
        [⟨some 52886, 0.0505⟩, ⟨some 105775, 0.0915⟩, ⟨some 150000, 0.1116⟩,
         ⟨some 220000, 0.1216⟩, ⟨none, 0.1316⟩]⟩ = 0.0915 := by
  norm_num [marginalProvincialTaxRate, marginalRate, marginalLoop, leTh]

/-- C3: the concrete Ontario scenario: income 100000, expenses 3000, fee rate
8%, plan fee 120 yields federal rate 0.205, provincial rate 0.0915, combined
0.2965, admin fee 240, total business cost 3360, required personal income
2000000/469 (≈ 4264.39) and savings 424160/469 (≈ 904.39). -/
theorem calculate_on_scenario :
    calculate ⟨100000, 3000, "ON", 0.08, 120⟩ = Except.ok
      { adminFee := 240
        totalBusinessCost := 3360
        requiredPersonalIncome := 2000000/469
        savings := 424160/469
        marginalTaxRate := 0.2965
        federalTaxRate := 0.205
        provincialTaxRate := 0.0915
        annualPlanFee := 120
        breakEven := 168840/593 } ∧
    (4264.39 : ℚ) < 2000000/469 ∧ (2000000/469 : ℚ) < 4264.40 ∧
    (904.39 : ℚ) < 424160/469 ∧ (424160/469 : ℚ) < 904.40 := by
  refine ⟨?_, by norm_num, by norm_num, by norm_num, by norm_num⟩
  rw [calculate_ok ⟨100000, 3000, "ON", 0.08, 120⟩
      ⟨"ON", "Ontario",
        [⟨some 52886, 0.0505⟩, ⟨some 105775, 0.0915⟩, ⟨some 150000, 0.1116⟩,
         ⟨some 220000, 0.1216⟩, ⟨none, 0.1316⟩]⟩
      (by norm_num) (by norm_num) rfl]
  simp only [calcResult, marginalFederal_100000, marginalON_100000,
    Except.ok.injEq, CalculatorResult.mk.injEq]
  norm_num

lemma federal_invariant : tableInvariant FEDERAL_TAX_BRACKETS := by
  refine ⟨by simp [FEDERAL_TAX_BRACKETS], ?_, ?_, rfl⟩
  · simp only [FEDERAL_TAX_BRACKETS, List.chain'_cons, List.chain'_singleton, thLtB]
    norm_num
  · simp only [FEDERAL_TAX_BRACKETS, List.map_cons, List.map_nil, List.pairwise_cons,
      List.mem_cons, List.mem_singleton, List.not_mem_nil]
    norm_num

lemma provinces_invariant : ∀ pr ∈ PROVINCES, tableInvariant pr.2.taxBrackets := by
  intro pr hpr
  fin_cases hpr <;>
    exact ⟨by simp, by simp only [List.chain'_cons, List.chain'_singleton, thLtB]; norm_num,
      by simp only [List.map_cons, List.map_nil]; norm_num [List.pairwise_cons], rfl⟩

lemma federal_rate_bound :
    ∀ r ∈ FEDERAL_TAX_BRACKETS.map TaxBracket.rate, 0 < r ∧ r ≤ 0.33 := by
  norm_num [FEDERAL_TAX_BRACKETS, List.forall_mem_cons]

lemma province_rate_bound :
    ∀ pr ∈ PROVINCES, ∀ r ∈ pr.2.taxBrackets.map TaxBracket.rate, 0 < r ∧ r ≤ 0.218 := by
  intro pr hpr
  fin_cases hpr <;> norm_num [List.forall_mem_cons]

lemma federal_thresholds_nonneg :
    ∀ b ∈ FEDERAL_TAX_BRACKETS, ∀ t ∈ b.threshold, (0:ℚ) ≤ t := by
  norm_num [FEDERAL_TAX_BRACKETS, List.forall_mem_cons, Option.mem_def]
  intro t ht
  cases ht

lemma lookup_mem {code : String} {p : Province} (h : lookupProvince code = some p) :
    ∃ s, (s, p) ∈ PROVINCES := by
  rw [lookupProvince] at h
  cases hf : PROVINCES.find? (fun q => q.1 = code) with
  | none => rw [hf] at h; simp at h
  | some q =>
    rw [hf] at h
    simp at h
    exact ⟨q.1, by rw [← h]; exact List.mem_of_find?_eq_some hf⟩

/-- C9: every shipped bracket table (federal and all ten provinces) satisfies
the table invariant, and for every positive income and registered province the
combined marginal rate used by `calculate` is strictly between 0 and 1 (so the
degenerate-rate division never happens with the shipped data). -/
theorem shipped_tables_sound (income : ℚ) (hinc : 0 < income) :
    tableInvariant FEDERAL_TAX_BRACKETS ∧
    (∀ pr ∈ PROVINCES, tableInvariant pr.2.taxBrackets) ∧
    (∀ (code : String) (p : Province), lookupProvince code = some p →
      0 < marginalFederalTaxRate income + marginalProvincialTaxRate income p ∧
      marginalFederalTaxRate income + marginalProvincialTaxRate income p < 1) := by
  refine ⟨federal_invariant, provinces_invariant, ?_⟩
  intro code p hp
  obtain ⟨s, hmem⟩ := lookup_mem hp
  have hfmem : marginalFederalTaxRate income ∈ FEDERAL_TAX_BRACKETS.map TaxBracket.rate :=
    marginalRate_mem income FEDERAL_TAX_BRACKETS (by simp [FEDERAL_TAX_BRACKETS])
  have hfb := federal_rate_bound _ hfmem
  have hpne : p.taxBrackets ≠ [] := (provinces_invariant (s, p) hmem).1
  have hpmem : marginalProvincialTaxRate income p ∈ p.taxBrackets.map TaxBracket.rate :=
    marginalRate_mem income p.taxBrackets hpne
  have hpb := province_rate_bound (s, p) hmem _ hpmem
  constructor
  · linarith [hfb.1, hpb.1]
  · have h33 : (0.33 : ℚ) + 0.218 < 1 := by norm_num
    linarith [hfb.2, hpb.2]

/-- Witness for C9 at income 50000 and Ontario. -/
theorem shipped_tables_sound_witness :
    0 < marginalFederalTaxRate 50000 + marginalProvincialTaxRate 50000
        ⟨"ON", "Ontario",
          [⟨some 52886, 0.0505⟩, ⟨some 105775, 0.0915⟩, ⟨some 150000, 0.1116⟩,
           ⟨some 220000, 0.1216⟩, ⟨none, 0.1316⟩]⟩ ∧
      marginalFederalTaxRate 50000 + marginalProvincialTaxRate 50000
        ⟨"ON", "Ontario",
          [⟨some 52886, 0.0505⟩, ⟨some 105775, 0.0915⟩, ⟨some 150000, 0.1116⟩,
           ⟨some 220000, 0.1216⟩, ⟨none, 0.1316⟩]⟩ < 1 :=
  (shipped_tables_sound 50000 (by norm_num)).2.2 ("ON")
    ⟨"ON", "Ontario",
      [⟨some 52886, 0.0505⟩, ⟨some 105775, 0.0915⟩, ⟨some 150000, 0.1116⟩,
       ⟨some 220000, 0.1216⟩, ⟨none, 0.1316⟩]⟩ rfl

/-- Counterexample for C5 as stated: the table `[(-5, 0.1), (Infinity, 0.2)]`
satisfies the spec's table invariant (strictly increasing thresholds,
non-decreasing rates, unbounded last entry, non-empty), yet at income 10 the
effective rate is 0.3, above the marginal rate 0.2 — the invariant says
nothing about thresholds being nonnegative. -/
theorem effective_le_marginal_cex :
    tableInvariant [⟨some (-5), 0.1⟩, ⟨none, 0.2⟩] ∧
    ¬(effectiveTaxRate 10 [⟨some (-5), 0.1⟩, ⟨none, 0.2⟩] ≤
      marginalRate 10 [⟨some (-5), 0.1⟩, ⟨none, 0.2⟩]) := by
  constructor
  · refine ⟨by simp, ?_, ?_, rfl⟩
    · simp [List.chain'_cons, thLtB]
    · simp only [List.map_cons, List.map_nil]
      norm_num [List.pairwise_cons]
  · have h1 : effectiveTaxRate 10 [⟨some (-5), (0.1:ℚ)⟩, ⟨none, 0.2⟩] = 0.3 := by
      norm_num [effectiveTaxRate, effLoop, minTh, leTh]
    have h2 : marginalRate 10 [⟨some (-5), (0.1:ℚ)⟩, ⟨none, 0.2⟩] = 0.2 := by
      norm_num [marginalRate, marginalLoop, leTh]
    rw [h1, h2]
    norm_num

/-- C5 (amended): for positive income and a table satisfying the invariant
plus nonnegative thresholds, the effective rate is at most the marginal
rate. -/
theorem effective_le_marginal (income : ℚ) (bs : List TaxBracket)
    (hinc : 0 < income) (hinv : tableInvariant bs)
    (hnn : ∀ b ∈ bs, ∀ t ∈ b.threshold, (0:ℚ) ≤ t) :
    effectiveTaxRate income bs ≤ marginalRate income bs := by
  obtain ⟨hne, hchain, hpair, hlast⟩ := hinv
  obtain ⟨M, hM⟩ := marginalLoop_isSome income hlast
  have hmr : marginalRate income bs = M := by rw [marginalRate, hM]
  have hhead : headThresholdLB 0 bs := by
    cases bs with
    | nil => trivial
    | cons b bs₂ =>
      rw [headThresholdLB]
      intro t ht
      exact hnn b (by simp) t ht
  have haux := effLoop_le_aux income bs 0 0 M hinc hhead hchain hpair hM
  rw [effectiveTaxRate, if_neg (not_le.mpr hinc), hmr, div_le_iff₀ hinc]
  calc effLoop income bs 0 0 ≤ 0 + (income - 0) * M := haux
    _ = M * income := by ring

/-- Witness for C5 at income 100000 and the federal table. -/
theorem effective_le_marginal_witness :
    effectiveTaxRate 100000 FEDERAL_TAX_BRACKETS ≤
      marginalRate 100000 FEDERAL_TAX_BRACKETS :=
  effective_le_marginal 100000 FEDERAL_TAX_BRACKETS (by norm_num)
    federal_invariant federal_thresholds_nonneg

/-- Counterexample for C6 as stated: strictly increasing thresholds alone do
not make `marginalRate` monotone — with decreasing rates `[(10, 0.5),
(Infinity, 0.1)]` the marginal rate drops from 0.5 at income 5 to 0.1 at
income 20. -/
theorem marginalRate_monotone_cex :
    List.Chain' (fun s t => thLtB s.threshold t.threshold = true)
      ([⟨some 10, 0.5⟩, ⟨none, 0.1⟩] : List TaxBracket) ∧
    (5 : ℚ) ≤ 20 ∧
    ¬(marginalRate 5 [⟨some 10, 0.5⟩, ⟨none, 0.1⟩] ≤
      marginalRate 20 [⟨some 10, 0.5⟩, ⟨none, 0.1⟩]) := by
  refine ⟨by simp [List.chain'_cons, thLtB], by norm_num, ?_⟩
  have h1 : marginalRate 5 [⟨some 10, (0.5:ℚ)⟩, ⟨none, 0.1⟩] = 0.5 := by
    norm_num [marginalRate, marginalLoop, leTh]
  have h2 : marginalRate 20 [⟨some 10, (0.5:ℚ)⟩, ⟨none, 0.1⟩] = 0.1 := by
    norm_num [marginalRate, marginalLoop, leTh]
  rw [h1, h2]
  norm_num

/-- C6 (amended): for a table with strictly increasing thresholds AND
non-decreasing rates, `marginalRate` is a non-decreasing step function of
income. -/
theorem marginalRate_monotone (bs : List TaxBracket) (a b : ℚ) (hab : a ≤ b)
    (hchain : List.Chain' (fun s t => thLtB s.threshold t.threshold = true) bs)
    (hpair : List.Pairwise (fun x y : ℚ => x ≤ y) (bs.map TaxBracket.rate)) :
    marginalRate a bs ≤ marginalRate b bs := by
  revert hchain hpair
  induction bs with
  | nil => intro _ _; simp [marginalRate, marginalLoop, lastRate]
  | cons h t ih =>
    intro hchain hpair
    by_cases hb : leTh b h.threshold
    · have ha : leTh a h.threshold := by
        cases hth : h.threshold with
        | none => simp [leTh]
        | some u =>
          rw [hth] at hb
          simp only [leTh, decide_eq_true_eq] at hb ⊢
          linarith
      rw [marginalRate, marginalLoop, if_pos ha, marginalRate, marginalLoop, if_pos hb]
    · by_cases ha : leTh a h.threshold
      · rw [marginalRate, marginalLoop, if_pos ha]
        have hmem := marginalRate_mem b (h :: t) (by simp)
        rw [List.map_cons] at hmem
        rcases List.mem_cons.mp hmem with heq | hmem₂
        · exact le_of_eq heq.symm
        · exact (List.pairwise_cons.mp (by simpa using hpair)).1 _ hmem₂
      · cases t with
        | nil =>
          have e1 : marginalRate a [h] = h.rate := by
            rw [marginalRate, marginalLoop, if_neg ha, marginalLoop]
            rfl
          have e2 : marginalRate b [h] = h.rate := by
            rw [marginalRate, marginalLoop, if_neg hb, marginalLoop]
            rfl
          rw [e1, e2]
        | cons c cs =>
          have hp2 : List.Pairwise (fun x y : ℚ => x ≤ y)
              (List.map TaxBracket.rate (c :: cs)) := by
            have hcopy := hpair
            rw [List.map_cons, List.pairwise_cons] at hcopy
            exact hcopy.2
          rw [marginalRate_cons ((Bool.not_eq_true _).mp ha) (by simp),
              marginalRate_cons ((Bool.not_eq_true _).mp hb) (by simp)]
          exact ih hchain.tail hp2

/-- Witness for C6 on the federal table between incomes 40000 and 250000. -/
theorem marginalRate_monotone_witness :
    marginalRate 40000 FEDERAL_TAX_BRACKETS ≤ marginalRate 250000 FEDERAL_TAX_BRACKETS :=
  marginalRate_monotone FEDERAL_TAX_BRACKETS 40000 250000 (by norm_num)
    federal_invariant.2.1 federal_invariant.2.2.1

/-- C8: `breakEven` equals `annualPlanFee * (1 - marginalTaxRate) /
marginalTaxRate`, it does not depend on the input expense, and (holding the
fee rate at 0, with the combined rate strictly between 0 and 1) feeding the
break-even value back in as the expense yields exactly zero savings. -/
theorem breakEven_contract :
    (∀ (input : CalculatorInput) (r : CalculatorResult), calculate input = Except.ok r →
      r.breakEven = input.annualPlanFee * (1 - r.marginalTaxRate) / r.marginalTaxRate) ∧
    (∀ (i₁ i₂ : CalculatorInput) (r₁ r₂ : CalculatorResult),
      calculate i₁ = Except.ok r₁ → calculate i₂ = Except.ok r₂ →
      i₁.annualIncome = i₂.annualIncome → i₁.province = i₂.province →
      i₁.annualPlanFee = i₂.annualPlanFee → r₁.breakEven = r₂.breakEven) ∧
    (∀ (input : CalculatorInput) (r : CalculatorResult),
      input.adminFeeRate = 0 → calculate input = Except.ok r →
      0 < r.marginalTaxRate → r.marginalTaxRate < 1 → 0 ≤ r.breakEven →
      ∃ r₂, calculate { input with annualMedicalExpenses := r.breakEven } = Except.ok r₂ ∧
        r₂.savings = 0) := by
  refine ⟨?_, ?_, ?_⟩
  · intro input r h
    obtain ⟨p, _, _, _, hr⟩ := calculate_ok_inv h
    subst hr
    rfl
  · intro i₁ i₂ r₁ r₂ h₁ h₂ hinc hprov hfee
    obtain ⟨p₁, _, _, hlp₁, hr₁⟩ := calculate_ok_inv h₁
    obtain ⟨p₂, _, _, hlp₂, hr₂⟩ := calculate_ok_inv h₂
    subst hr₁
    subst hr₂
    rw [hprov] at hlp₁
    rw [hlp₁] at hlp₂
    have hp : p₁ = p₂ := Option.some.inj hlp₂
    subst hp
    simp only [calcResult]
    rw [hinc, hfee]
  · intro input r hfee0 h hm0 hm1 hbe
    obtain ⟨p, hi, _, hlp, hr⟩ := calculate_ok_inv h
    subst hr
    refine ⟨_, calculate_ok _ p hi hbe hlp, ?_⟩
    have hm0' : 0 < marginalFederalTaxRate input.annualIncome +
        marginalProvincialTaxRate input.annualIncome p := hm0
    have hm1' : marginalFederalTaxRate input.annualIncome +
        marginalProvincialTaxRate input.annualIncome p < 1 := hm1
    have hne0 : marginalFederalTaxRate input.annualIncome +
        marginalProvincialTaxRate input.annualIncome p ≠ 0 := ne_of_gt hm0'
    have hne1 : 1 - (marginalFederalTaxRate input.annualIncome +
        marginalProvincialTaxRate input.annualIncome p) ≠ 0 := by
      intro hcon
      rw [sub_eq_zero] at hcon
      exact absurd hcon.symm (ne_of_lt hm1')
    simp only [calcResult, hfee0]
    field_simp
    ring

/-- Witness for C8: the Ontario scenario with fee rate 0; the break-even
expense makes the savings exactly zero. -/
theorem breakEven_contract_witness :
    ∃ r₂, calculate { (⟨100000, 3000, "ON", 0, 120⟩ : CalculatorInput) with
        annualMedicalExpenses :=
          (calcResult ⟨100000, 3000, "ON", 0, 120⟩
            ⟨"ON", "Ontario",
              [⟨some 52886, 0.0505⟩, ⟨some 105775, 0.0915⟩, ⟨some 150000, 0.1116⟩,
               ⟨some 220000, 0.1216⟩, ⟨none, 0.1316⟩]⟩).breakEven } = Except.ok r₂ ∧
      r₂.savings = 0 :=
  breakEven_contract.2.2 ⟨100000, 3000, "ON", 0, 120⟩
    (calcResult ⟨100000, 3000, "ON", 0, 120⟩
      ⟨"ON", "Ontario",
        [⟨some 52886, 0.0505⟩, ⟨some 105775, 0.0915⟩, ⟨some 150000, 0.1116⟩,
         ⟨some 220000, 0.1216⟩, ⟨none, 0.1316⟩]⟩)
    rfl
    (calculate_ok ⟨100000, 3000, "ON", 0, 120⟩
      ⟨"ON", "Ontario",
        [⟨some 52886, 0.0505⟩, ⟨some 105775, 0.0915⟩, ⟨some 150000, 0.1116⟩,
         ⟨some 220000, 0.1216⟩, ⟨none, 0.1316⟩]⟩
      (by norm_num) (by norm_num) rfl)
    (by simp only [calcResult, marginalFederal_100000, marginalON_100000]; norm_num)
    (by simp only [calcResult, marginalFederal_100000, marginalON_100000]; norm_num)
    (by simp only [calcResult, marginalFederal_100000, marginalON_100000]; norm_num)

end HSA
